import Mathlib

/-!
Verification of the ACIS SAB binary decoder (`src/ezdxf/_acis/sab.py`).

The decoder is embedded shallowly:

* bytes are `Nat` values (each < 256 in well-formed buffers),
* the cursor index is an `Int` (Python's `forward` can move it backward
  when a `LONG_STR` length is negative), with Python's negative-index and
  slice semantics modelled explicitly,
* floating point payloads are kept as raw 64-bit patterns (`Nat`) since no
  decoded float is ever interpreted arithmetically by the decoder,
* Python exceptions are the error side of `Except PyErr`,
* the cyclic entity graph is an arena: the builder owns the entity list and
  every resolved reference is an index into that list (`EntityRef`).

The modules `ezdxf._acis.const` and `ezdxf._acis.hdr` are not part of the
sources; the tag byte values, the data-end marker set, the date format and
the header record are modelled from the specification where so noted.
-/

/-- Python exception kinds that can escape the decoder.  `ParsingError`
carries its message; `fuelOut` models non-termination of the record loop
(reachable in the source only through negative `LONG_STR` lengths, which
move the cursor backward). -/
inductive PyErr where
  | parsing (msg : String)
  | indexError
  | typeError
  | structError
  | valueError
  | fuelOut
  deriving DecidableEq, Repr

/-- Reference to an entity of the arena: the shared `NULL_PTR` sentinel or
the entity stored at a (non-negative, already normalised) list position. -/
inductive EntityRef where
  | null
  | idx (i : Nat)
  deriving DecidableEq, Repr

/-- Token payload.  Strings are kept as their raw bytes (`read_str` merely
slices and decodes them), doubles as their 64-bit little-endian pattern. -/
inductive Value where
  | vInt (i : Int)
  | vDbl (bits : Nat)
  | vStr (s : List Nat)
  | vBool (b : Bool)
  | vVec (x y z : Nat)
  | vEntity (r : EntityRef)
  deriving DecidableEq, Repr

/-- A decoded token: a tag byte paired with its payload, mirroring the
`Token` named tuple of the source. -/
structure Token where
  tag : Nat
  value : Value
  deriving DecidableEq, Repr

/-- Tag byte values.  Modelled from the spec: `ezdxf._acis.const.Tags` is
not among the sources; the spec fixes `STR = 7` and `DOUBLE = 6` and states
that the remaining tags are distinct single bytes (the two reserved codes
are named after their byte values `0x15`/`0x17` in the source). -/
def TagINT : Nat := 2

/-- Tag byte of an 8-byte float payload (spec: `DOUBLE` = 6). -/
def TagDOUBLE : Nat := 6

/-- Tag byte of a length-prefixed short string (spec: `STR` = 7). -/
def TagSTR : Nat := 7

/-- Tag byte of a 4-byte-length-prefixed string. Modelled from the spec. -/
def TagLONG_STR : Nat := 8

/-- Tag byte of the literal `True`. Modelled from the spec. -/
def TagBOOL_TRUE : Nat := 10

/-- Tag byte of the literal `False`. Modelled from the spec. -/
def TagBOOL_FALSE : Nat := 11

/-- Tag byte of an unresolved entity pointer. Modelled from the spec. -/
def TagPOINTER : Nat := 12

/-- Tag byte closing an entity type name. Modelled from the spec. -/
def TagENTITY_TYPE : Nat := 13

/-- Tag byte of a partial entity type name. Modelled from the spec. -/
def TagENTITY_TYPE_EX : Nat := 14

/-- Tag byte opening a subtype scope. Modelled from the spec. -/
def TagSUBTYPE_START : Nat := 15

/-- Tag byte closing a subtype scope. Modelled from the spec. -/
def TagSUBTYPE_END : Nat := 16

/-- Tag byte terminating a record. Modelled from the spec. -/
def TagRECORD_END : Nat := 17

/-- Tag byte of a location vector (3 doubles). Modelled from the spec. -/
def TagLOCATION_VEC : Nat := 19

/-- Tag byte of a direction vector (3 doubles). Modelled from the spec. -/
def TagDIRECTION_VEC : Nat := 20

/-- Reserved tag `0x15` with a 4-byte int payload (source name
`UNKNOWN_0x15`). -/
def TagUNKNOWN_0x15 : Nat := 0x15

/-- Reserved tag `0x17` with an 8-byte float payload (source name
`UNKNOWN_0x17`). -/
def TagUNKNOWN_0x17 : Nat := 0x17

/-- Bytes of the string `"End-of-ACIS-data"`. -/
def endOfAcisData : List Nat :=
  [69, 110, 100, 45, 111, 102, 45, 65, 67, 73, 83, 45, 100, 97, 116, 97]

/-- Data-end marker strings.  Modelled from the spec: `DATA_END_MARKERS`
lives in `ezdxf._acis.const`, which is not among the sources; the spec
names `"End-of-ACIS-data"` as the end-of-file sentinel record name. -/
def DATA_END_MARKERS : List (List Nat) := [endOfAcisData]

/-- Python `value in DATA_END_MARKERS`: true exactly for a string value
equal to one of the marker strings (string/non-string comparison is
`False` in Python). -/
def isEndMarkerVal : Value → Bool
  | .vStr s => DATA_END_MARKERS.contains s
  | _ => false

/-- Python single-element indexing `xs[i]` position normalisation: a
non-negative index must be below the length, a negative index counts from
the end; out of range is an `IndexError`. -/
def normIdx (len : Nat) (i : Int) : Option Nat :=
  if 0 ≤ i then (if i < (len : Int) then some i.toNat else none)
  else (if -i ≤ (len : Int) then some (len - (-i).toNat) else none)

/-- Python slice bound clamping for `xs[a:b]` (step 1): negative bounds
count from the end, everything is clamped into `[0, len]`. -/
def sliceBound (len : Nat) (i : Int) : Nat :=
  if i < 0 then (if -i ≤ (len : Int) then len - (-i).toNat else 0)
  else (if i ≤ (len : Int) then i.toNat else len)

/-- Python slice `xs[a:b]` with step 1. -/
def pySlice (data : List Nat) (start stop : Int) : List Nat :=
  (data.take (sliceBound data.length stop)).drop (sliceBound data.length start)

/-- Little-endian byte list to unsigned natural number. -/
def leNat : List Nat → Nat
  | [] => 0
  | b :: rest => b + 256 * leNat rest

/-- Signed 32-bit value of 4 little-endian bytes (two's complement). -/
def decodeI32 (bytes : List Nat) : Int :=
  let n := leNat bytes
  if n < 2 ^ 31 then (n : Int) else (n : Int) - 2 ^ 32

/-- Buffer offset normalisation of `struct.unpack_from`: a negative offset
counts from the end of the buffer, an unreachable one is a
`struct.error`. -/
def unpackOffset (len : Nat) (offset : Int) : Except PyErr Nat :=
  if offset < 0 then
    (if -offset ≤ (len : Int) then .ok (len - (-offset).toNat) else .error .structError)
  else .ok offset.toNat

/-- Source `Decoder.read_byte`: fetch the byte at the cursor (Python
single-element indexing, so a positionally negative cursor reads from the
buffer end) and advance by one. -/
def readByte (data : List Nat) (index : Int) : Except PyErr (Nat × Int) :=
  match normIdx data.length index with
  | some p => .ok (data.getD p 0, index + 1)
  | none => .error .indexError

/-- Source `Decoder.read_bytes`: advance the cursor by `count` and return
the slice `data[pos : pos + count]`.  Slicing never fails in Python, so
this operation is total: when fewer than `count` bytes remain the returned
slice is silently shorter. -/
def readBytes (data : List Nat) (index count : Int) : List Nat × Int :=
  (pySlice data index (index + count), index + count)

/-- Source `Decoder.read_int`: advance by 4 and unpack a little-endian
signed 32-bit integer via `struct.unpack_from`, which raises
`struct.error` when fewer than 4 bytes are available at the offset. -/
def readInt (data : List Nat) (index : Int) : Except PyErr (Int × Int) := do
  let p ← unpackOffset data.length index
  if p + 4 ≤ data.length then
    .ok (decodeI32 ((data.drop p).take 4), index + 4)
  else .error .structError

/-- Source `Decoder.read_float`: advance by 8 and unpack a little-endian
64-bit double, kept as its raw bit pattern. -/
def readFloat (data : List Nat) (index : Int) : Except PyErr (Nat × Int) := do
  let p ← unpackOffset data.length index
  if p + 8 ≤ data.length then
    .ok (leNat ((data.drop p).take 8), index + 8)
  else .error .structError

/-- Source `Decoder.read_floats(3)` as used for vectors: advance by 24 and
unpack three consecutive doubles (raw bit patterns). -/
def readFloats3 (data : List Nat) (index : Int) : Except PyErr ((Nat × Nat × Nat) × Int) := do
  let p ← unpackOffset data.length index
  if p + 24 ≤ data.length then
    .ok ((leNat ((data.drop p).take 8),
          leNat ((data.drop (p + 8)).take 8),
          leNat ((data.drop (p + 16)).take 8)), index + 24)
  else .error .structError

/-- Low level ACIS entity, mirroring `SabEntity`.  The Python object holds
arbitrary Python values in `name`, `attr_ptr` and `id` (whatever the record
tokens carried), so the fields are `Value`s.  `attributes` starts as
Python `None` (here `Option.none`) and is set by the pointer resolver to an
arena reference. -/
structure SabEntity where
  name : Value
  attr_ptr : Value
  id : Value
  data : List Token
  attributes : Option EntityRef
  deriving DecidableEq, Repr

/-- Source `AcisHeader`.  Modelled from the spec: `ezdxf._acis.hdr` is not
among the sources; the spec lists version, record count, entity count,
flags, product id, ACIS version string, creation date (kept here as its
validated raw byte string) and the units-in-mm float (raw bit pattern).
The two tolerance floats are read but not retained. -/
structure AcisHeader where
  version : Int
  n_records : Int
  n_entities : Int
  flags : Int
  product_id : List Nat
  acis_version : List Nat
  creation_date : List Nat
  units_in_mm : Nat
  deriving DecidableEq, Repr

/-- Source `SabBuilder`: header, body subset and full entity list. -/
structure SabBuilder where
  header : AcisHeader
  bodies : List SabEntity
  entities : List SabEntity
  deriving DecidableEq, Repr

/-- Bytes of the string `"body"`. -/
def bodyBytes : List Nat := [98, 111, 100, 121]

/-- Source `SabBuilder.set_entities`: reset the body subset to the
entities named `"body"` (in list order) and store the full list. -/
def setEntities (b : SabBuilder) (es : List SabEntity) : SabBuilder :=
  { b with bodies := es.filter (fun e => e.name == Value.vStr bodyBytes), entities := es }

/-- Python `record[i]` for a non-negative literal index: `IndexError` when
the record is too short. -/
def pyAt (l : List Token) (i : Nat) : Except PyErr Token :=
  match l.get? i with
  | some t => .ok t
  | none => .error .indexError

/-- Python numeric equality `value == -1` as used by `ptr` in
`resolve_pointers`: true for the int `-1`; the bools equal `0`/`1`, never
`-1`; a float compares true exactly when it is `-1.0` (bit pattern
`0xBFF0000000000000`); every other value compares unequal. -/
def pyEqNegOne : Value → Bool
  | .vInt i => i == -1
  | .vDbl bits => bits == 0xBFF0000000000000
  | _ => false

/-- Python `entities[value]` index extraction: ints index directly, bools
index as `0`/`1`, anything else is a `TypeError`. -/
def pyIndexVal : Value → Except PyErr Int
  | .vInt i => .ok i
  | .vBool b => .ok (if b then 1 else 0)
  | _ => .error .typeError

/-- Inner helper `ptr` of `resolve_pointers`: value `-1` resolves to the
`NULL_PTR` sentinel, anything else is used as a Python list index into the
entity list of length `n` (negative indices count from the end). -/
def ptr (n : Nat) (v : Value) : Except PyErr EntityRef :=
  if pyEqNegOne v then .ok .null
  else
    match pyIndexVal v with
    | .error e => .error e
    | .ok i =>
      match normIdx n i with
      | some p => .ok (.idx p)
      | none => .error .indexError

/-- Per-token step of the `resolve_pointers` data loop: a `POINTER`-tagged
token is rebuilt with the resolved entity reference, all others pass
through unchanged. -/
def resolveToken (n : Nat) (t : Token) : Except PyErr Token :=
  if t.tag == TagPOINTER then
    match ptr n t.value with
    | .error e => .error e
    | .ok r => .ok ⟨t.tag, .vEntity r⟩
  else .ok t

/-- Effectful map over a list in the `Except` monad, stopping at the first
error (the order in which `resolve_pointers` walks the data tokens). -/
def exMapM (f : α → Except PyErr β) : List α → Except PyErr (List β)
  | [] => .ok []
  | a :: as =>
    match f a with
    | .error e => .error e
    | .ok b =>
      match exMapM f as with
      | .error e => .error e
      | .ok bs => .ok (b :: bs)

/-- Body of the `resolve_pointers` entity loop: resolve the attribute
pointer, discard the raw index (`attr_ptr = -1`) and resolve every
`POINTER`-tagged data token. -/
def resolveEntity (n : Nat) (e : SabEntity) : Except PyErr SabEntity :=
  match ptr n e.attr_ptr with
  | .error er => .error er
  | .ok a =>
    match exMapM (resolveToken n) e.data with
    | .error er => .error er
    | .ok d => .ok { e with attributes := some a, attr_ptr := .vInt (-1), data := d }

/-- Source `resolve_pointers`: one pass over the complete entity list,
resolving each entity against the list length (resolution targets are
arena positions, so entities are independent of each other's pass). -/
def resolvePointers (es : List SabEntity) : Except PyErr (List SabEntity) :=
  exMapM (resolveEntity es.length) es

/-- Python `str()` rendering of a token value as interpolated into the
unknown-tag message.  Strings render as themselves, ints and bools as
their literals; float/vector/entity renderings are abbreviated (no claim
inspects them). -/
def pyStrOfValue : Value → String
  | .vInt i => toString i
  | .vBool true => "True"
  | .vBool false => "False"
  | .vStr s => String.mk (s.map Char.ofNat)
  | .vDbl _ => "<float>"
  | .vVec _ _ _ => "<floats>"
  | .vEntity _ => "<entity>"

/-- Lowercase hexadecimal rendering of a byte, as Python `f"0x{tag:x}"`. -/
def hexStr (n : Nat) : String := String.mk (Nat.toDigits 16 n)

/-- Message of the unknown-tag `ParsingError` of `Decoder.read_record`. -/
def unknownTagMsg (tag : Nat) (first : Value) : String :=
  "unknown SAB tag: 0x" ++ hexStr tag ++ " (" ++ toString tag ++ ") in entity '"
    ++ pyStrOfValue first ++ "'"

/-- Message of the premature-end `ParsingError` of `Decoder.read_record`
(spelled "pre-mature" in the source). -/
def prematureMsg : String := "pre-mature end of data"

/-- First-token data-end test applied to a partially accumulated record:
false for the empty record, otherwise the marker test on the first
token's value. -/
def isEndMarkerRecord : List Token → Bool
  | [] => false
  | t :: _ => isEndMarkerVal t.value

/-- Inner `entity_name()` of `Decoder.read_record`: the buffered type-name
fragments joined with `"-"` (byte 45) in accumulation order. -/
def joinDash : List (List Nat) → List Nat
  | [] => []
  | [s] => s
  | s :: rest => s ++ 45 :: joinDash rest

/-- Result of one iteration of the `Decoder.read_record` loop: either the
loop finishes with a result (a completed record or a raised exception) or
it continues with updated cursor, token list, type-name fragments and
subtype level. -/
inductive StepRes where
  | done (r : Except PyErr (List Token × Int))
  | next (index : Int) (values : List Token) (etype : List (List Nat)) (lvl : Int)

/-- One iteration of the `Decoder.read_record` loop: the loop-top
`has_data` check (exhaustion accepts the partial record only when its
first token's value is a data-end marker, otherwise `ParsingError`), then
one tag byte dispatched exactly as in the source.  The unknown-tag arm
evaluates `values[0].value` for its message, which is an `IndexError` when
no token has been accumulated yet. -/
def readRecordStep (data : List Nat) (index : Int) (values : List Token)
    (etype : List (List Nat)) (lvl : Int) : StepRes :=
  if index < (data.length : Int) then
    match readByte data index with
    | .error e => .done (.error e)
    | .ok (tag, i1) =>
      if tag == TagINT then
        match readInt data i1 with
        | .error e => .done (.error e)
        | .ok (v, i2) => .next i2 (values ++ [⟨tag, .vInt v⟩]) etype lvl
      else if tag == TagDOUBLE then
        match readFloat data i1 with
        | .error e => .done (.error e)
        | .ok (v, i2) => .next i2 (values ++ [⟨tag, .vDbl v⟩]) etype lvl
      else if tag == TagSTR then
        match readByte data i1 with
        | .error e => .done (.error e)
        | .ok (len, i2) =>
          let r := readBytes data i2 (len : Int)
          .next r.2 (values ++ [⟨tag, .vStr r.1⟩]) etype lvl
      else if tag == TagPOINTER then
        match readInt data i1 with
        | .error e => .done (.error e)
        | .ok (v, i2) => .next i2 (values ++ [⟨tag, .vInt v⟩]) etype lvl
      else if tag == TagBOOL_FALSE then
        .next i1 (values ++ [⟨tag, .vBool false⟩]) etype lvl
      else if tag == TagBOOL_TRUE then
        .next i1 (values ++ [⟨tag, .vBool true⟩]) etype lvl
      else if tag == TagLONG_STR then
        match readInt data i1 with
        | .error e => .done (.error e)
        | .ok (len, i2) =>
          let r := readBytes data i2 len
          .next r.2 (values ++ [⟨tag, .vStr r.1⟩]) etype lvl
      else if tag == TagENTITY_TYPE_EX then
        match readByte data i1 with
        | .error e => .done (.error e)
        | .ok (len, i2) =>
          let r := readBytes data i2 (len : Int)
          .next r.2 values (etype ++ [r.1]) lvl
      else if tag == TagENTITY_TYPE then
        match readByte data i1 with
        | .error e => .done (.error e)
        | .ok (len, i2) =>
          let r := readBytes data i2 (len : Int)
          .next r.2 (values ++ [⟨tag, .vStr (joinDash (etype ++ [r.1]))⟩]) [] lvl
      else if tag == TagLOCATION_VEC then
        match readFloats3 data i1 with
        | .error e => .done (.error e)
        | .ok (v, i2) => .next i2 (values ++ [⟨tag, .vVec v.1 v.2.1 v.2.2⟩]) etype lvl
      else if tag == TagDIRECTION_VEC then
        match readFloats3 data i1 with
        | .error e => .done (.error e)
        | .ok (v, i2) => .next i2 (values ++ [⟨tag, .vVec v.1 v.2.1 v.2.2⟩]) etype lvl
      else if tag == TagUNKNOWN_0x15 then
        match readInt data i1 with
        | .error e => .done (.error e)
        | .ok (v, i2) => .next i2 (values ++ [⟨tag, .vInt v⟩]) etype lvl
      else if tag == TagUNKNOWN_0x17 then
        match readFloat data i1 with
        | .error e => .done (.error e)
        | .ok (v, i2) => .next i2 (values ++ [⟨tag, .vDbl v⟩]) etype lvl
      else if tag == TagSUBTYPE_START then
        .next i1 (values ++ [⟨tag, .vInt (lvl + 1)⟩]) etype (lvl + 1)
      else if tag == TagSUBTYPE_END then
        .next i1 (values ++ [⟨tag, .vInt lvl⟩]) etype (lvl - 1)
      else if tag == TagRECORD_END then
        .done (.ok (values, i1))
      else
        match values with
        | [] => .done (.error .indexError)
        | t :: _ => .done (.error (.parsing (unknownTagMsg tag t.value)))
  else
    match values with
    | [] => .done (.error (.parsing prematureMsg))
    | t :: _ =>
      if isEndMarkerVal t.value then .done (.ok (values, index))
      else .done (.error (.parsing prematureMsg))

/-- Driver of the `Decoder.read_record` loop: iterate `readRecordStep`.
`fuel` bounds the number of iterations; the Python loop advances the
cursor on every iteration but can move it backward via a negative
`LONG_STR` length, so it can diverge — divergence is modelled by the
`.fuelOut` error, which no sufficiently fuelled run reaches. -/
def readRecordAux : Nat → List Nat → Int → List Token → List (List Nat) → Int →
    Except PyErr (List Token × Int)
  | 0, _, _, _, _, _ => .error .fuelOut
  | fuel + 1, data, index, values, etype, lvl =>
    match readRecordStep data index values etype lvl with
    | .done r => r
    | .next i v e l => readRecordAux fuel data i v e l

/-- Source `Decoder.read_record`: run the accumulation loop on an empty
record with no pending type-name fragments and subtype level `0`. -/
def readRecord (fuel : Nat) (data : List Nat) (index : Int) :
    Except PyErr (List Token × Int) :=
  readRecordAux fuel data index [] [] 0

/-- Result of one `build_entities` step: `stop` is the terminal marker
entity (the generator returns after yielding it), `cont` a regular
entity. -/
inductive Built where
  | stop (e : SabEntity)
  | cont (e : SabEntity)
  deriving DecidableEq, Repr

/-- Body of the `build_entities` loop for one record: token 0 is the name
(a data-end marker yields a name-only entity and stops), token 1 the raw
attribute pointer; with version `>= 700` token 2 is the id and data starts
at token 3, otherwise the id defaults to `-1` and data starts at token 2.
Missing tokens are Python `IndexError`s. -/
def buildOne (version : Int) (record : List Token) : Except PyErr Built :=
  match pyAt record 0 with
  | .error e => .error e
  | .ok t0 =>
    if isEndMarkerVal t0.value then
      .ok (.stop ⟨t0.value, .vInt (-1), .vInt (-1), [], none⟩)
    else
      match pyAt record 1 with
      | .error e => .error e
      | .ok t1 =>
        if version ≥ 700 then
          match pyAt record 2 with
          | .error e => .error e
          | .ok t2 => .ok (.cont ⟨t0.value, t1.value, t2.value, record.drop 3, none⟩)
        else
          .ok (.cont ⟨t0.value, t1.value, .vInt (-1), record.drop 2, none⟩)

/-- Fused `Decoder.read_records` / `build_entities` loop, mirroring their
lazy generator composition: while the cursor has data, read one record and
build one entity; an `IndexError` escaping `read_record` is swallowed by
`read_records` as clean end of stream; a data-end marker entity stops the
stream without touching the remaining bytes. -/
def buildLoop (recFuel : Nat) : Nat → List Nat → Int → Int →
    Except PyErr (List SabEntity)
  | 0, _, _, _ => .error .fuelOut
  | fuel + 1, data, index, version =>
    if index < (data.length : Int) then
      match readRecord recFuel data index with
      | .error .indexError => .ok []
      | .error e => .error e
      | .ok (record, index') =>
        match buildOne version record with
        | .error e => .error e
        | .ok (.stop e) => .ok [e]
        | .ok (.cont e) =>
          match buildLoop recFuel fuel data index' version with
          | .error er => .error er
          | .ok rest => .ok (e :: rest)
    else .ok []

/-- Byte classification used by the modelled date format: ASCII digit. -/
def isDigitByte (b : Nat) : Bool := 48 ≤ b && b ≤ 57

/-- Byte classification used by the modelled date format: ASCII letter. -/
def isAlphaByte (b : Nat) : Bool := (65 ≤ b && b ≤ 90) || (97 ≤ b && b ≤ 122)

/-- Split a byte string on the space byte (32). -/
def splitSpace : List Nat → List (List Nat)
  | [] => [[]]
  | b :: rest =>
    let parts := splitSpace rest
    if b == 32 then [] :: parts
    else
      match parts with
      | [] => [[b]]
      | p :: ps => (b :: p) :: ps

/-- Modelled from the spec: `DATE_FMT` lives in `ezdxf._acis.const`, which
is not among the sources.  The spec prescribes a strict fixed-format
timestamp parse whose conforming example is `"1 Jan 1900 00:00:00"`; the
model accepts exactly day digits, a three-letter month name, a four-digit
year and a `hh:mm:ss` time, separated by single spaces. -/
def matchesDate (s : List Nat) : Bool :=
  match splitSpace s with
  | [d, m, y, t] =>
    decide (1 ≤ d.length) && decide (d.length ≤ 2) && d.all isDigitByte
      && decide (m.length = 3) && m.all isAlphaByte
      && decide (y.length = 4) && y.all isDigitByte
      && (match t with
          | [h1, h2, c1, m1, m2, c2, s1, s2] =>
            isDigitByte h1 && isDigitByte h2 && c1 == 58
              && isDigitByte m1 && isDigitByte m2 && c2 == 58
              && isDigitByte s1 && isDigitByte s2
          | _ => false)
  | _ => false

/-- Source `Decoder.read_str_tag`: one tag byte that must be `STR` (else
`ParsingError`), a one-byte length, then that many raw bytes. -/
def readStrTag (data : List Nat) (index : Int) : Except PyErr (List Nat × Int) :=
  match readByte data index with
  | .error e => .error e
  | .ok (tag, i1) =>
    if tag == TagSTR then
      match readByte data i1 with
      | .error e => .error e
      | .ok (len, i2) => .ok (readBytes data i2 (len : Int))
    else .error (.parsing "string tag (7) not found")

/-- Source `Decoder.read_double_tag`: one tag byte that must be `DOUBLE`
(else `ParsingError`), then one 8-byte float. -/
def readDoubleTag (data : List Nat) (index : Int) : Except PyErr (Nat × Int) :=
  match readByte data index with
  | .error e => .error e
  | .ok (tag, i1) =>
    if tag == TagDOUBLE then readFloat data i1
    else .error (.parsing "double tag (6) not found")

/-- Bytes 0 to 14 of every SAB stream: the ASCII signature
`"ACIS BinaryFile"`. -/
def sigBytes : List Nat :=
  [65, 67, 73, 83, 32, 66, 105, 110, 97, 114, 121, 70, 105, 108, 101]

/-- Source `Decoder.read_header`: exact 15-byte signature, four ints
(version, record count, entity count, flags), three tagged strings
(product id, ACIS version, creation date — the date must satisfy the fixed
date format, a failed `strptime` being a `ValueError`), one tagged double
(units) and two tagged doubles that are read and dropped (tolerances). -/
def readHeader (data : List Nat) : Except PyErr (AcisHeader × Int) := do
  if pySlice data 0 15 == sigBytes then
    let (version, i1) ← readInt data 15
    let (nRec, i2) ← readInt data i1
    let (nEnt, i3) ← readInt data i2
    let (flags, i4) ← readInt data i3
    let (productId, i5) ← readStrTag data i4
    let (acisVersion, i6) ← readStrTag data i5
    let (date, i7) ← readStrTag data i6
    if matchesDate date then
      let (units, i8) ← readDoubleTag data i7
      let (_resTol, i9) ← readDoubleTag data i8
      let (_norTol, i10) ← readDoubleTag data i9
      .ok (⟨version, nRec, nEnt, flags, productId, acisVersion, date, units⟩, i10)
    else .error .valueError
  else .error (.parsing "not a SAB file")

/-- Python values that can be handed to `parse_sab`: byte buffers, lists
of chunks, or non-buffer scalars (represented by `none` and ints). -/
inductive PyVal where
  | pyBytes (data : List Nat)
  | pyByteArr (data : List Nat)
  | pyList (items : List PyVal)
  | pyNone
  | pyInt (i : Int)
  deriving Repr

/-- Python `b"".join(chunks)` over a materialised sequence: concatenates
bytes-like items and raises `TypeError` at the first item that is not
bytes-like. -/
def joinChunks : List PyVal → Except PyErr (List Nat)
  | [] => .ok []
  | .pyBytes b :: rest =>
    match joinChunks rest with
    | .error e => .error e
    | .ok r => .ok (b ++ r)
  | .pyByteArr b :: rest =>
    match joinChunks rest with
    | .error e => .error e
    | .ok r => .ok (b ++ r)
  | _ :: _ => .error .typeError

/-- Input normalisation of `parse_sab`: a `bytes`/`bytearray` argument is
used directly, anything else is passed to `b"".join` (iterating a
non-sequence such as `None` or an int raises `TypeError`).  The source's
subsequent `raise TypeError(...)` re-check is unreachable because a
successful `join` always returns bytes. -/
def toBytes : PyVal → Except PyErr (List Nat)
  | .pyBytes b => .ok b
  | .pyByteArr b => .ok b
  | .pyList items => joinChunks items
  | _ => .error .typeError

/-- Arguments accepted by `parse_sab` without a `TypeError`: byte buffers
and sequences all of whose items are byte buffers. -/
def validInput : PyVal → Bool
  | .pyBytes _ => true
  | .pyByteArr _ => true
  | .pyList items => items.all (fun it =>
      match it with
      | .pyBytes _ => true
      | .pyByteArr _ => true
      | _ => false)
  | _ => false

/-- Source `parse_sab`: normalise the input to bytes, read the header,
run the fused record/entity stream with the header version, resolve all
pointers and store the result in a fresh builder.  `fuel` bounds the two
decoding loops (see `readRecordAux`). -/
def parseSab (fuel : Nat) (b : PyVal) : Except PyErr SabBuilder :=
  match toBytes b with
  | .error e => .error e
  | .ok data =>
    match readHeader data with
    | .error e => .error e
    | .ok (header, index) =>
      match buildLoop fuel fuel data index header.version with
      | .error e => .error e
      | .ok entities =>
        match resolvePointers entities with
        | .error e => .error e
        | .ok resolved => .ok (setEntities ⟨header, [], []⟩ resolved)

/-- Discriminator for a decode result that failed with a `ParsingError`
(of any message). -/
def isParsingResult : Except PyErr SabBuilder → Bool
  | .error (.parsing _) => true
  | _ => false

/-- Number of `SUBTYPE_START` tokens of a token list. -/
def subStarts (l : List Token) : Nat :=
  l.countP (fun t => t.tag == TagSUBTYPE_START)

/-- Number of `SUBTYPE_END` tokens of a token list. -/
def subEnds (l : List Token) : Nat :=
  l.countP (fun t => t.tag == TagSUBTYPE_END)

/-- Value of the `subtype_level` counter after processing a token list,
starting from level `0`: starts minus ends. -/
def subLevelAfter (l : List Token) : Int :=
  (subStarts l : Int) - (subEnds l : Int)

/-- Every `SUBTYPE_START` token of the list carries the level after the
increment (one more than the level reached by the preceding tokens) and
every `SUBTYPE_END` token carries the level before the decrement (exactly
the level reached by the preceding tokens). -/
def subtypeLevelsOk (l : List Token) : Prop :=
  ∀ j (hj : j < l.length),
    ((l.get ⟨j, hj⟩).tag = TagSUBTYPE_START →
      (l.get ⟨j, hj⟩).value = .vInt (1 + subLevelAfter (l.take j)))
    ∧ ((l.get ⟨j, hj⟩).tag = TagSUBTYPE_END →
      (l.get ⟨j, hj⟩).value = .vInt (subLevelAfter (l.take j)))

/-- C7: the claim states `read_bytes(n)` always yields exactly `n` bytes or
fails; in the source the Python slice `data[pos : pos + count]` silently
truncates, so `read_bytes` of an empty buffer returns the empty slice and
still advances the cursor by `5` — no failure is possible (its type is not
even fallible). -/
theorem read_bytes_short_slice_cex :
    readBytes ([] : List Nat) 0 5 = ([], 5)
    ∧ ((readBytes ([] : List Nat) 0 5).1).length = 0 :=
  ⟨rfl, rfl⟩

/-- C7 (amended): from a non-negative cursor, `read_bytes(count)` always
advances the cursor by `count` and returns the slice
`data[index : index + count]`, whose length is `min count (len - index)`
for non-negative `count` — exactly `count` bytes when that many remain,
silently fewer otherwise, never an error; `read_byte` is the operation
that fails (with `IndexError`) exactly when the cursor is at or past the
end. -/
theorem read_bytes_slice_behavior (data : List Nat) (index count : Int)
    (h0 : 0 ≤ index) :
    (readBytes data index count).2 = index + count
    ∧ (0 ≤ count →
        ((readBytes data index count).1).length =
          min count.toNat (data.length - index.toNat))
    ∧ (0 ≤ count → index + count ≤ (data.length : Int) →
        ((readBytes data index count).1).length = count.toNat)
    ∧ ((∃ e, readByte data index = .error e) ↔ (data.length : Int) ≤ index) := by
  have hlen : ∀ _ : 0 ≤ count,
      ((readBytes data index count).1).length =
        min count.toNat (data.length - index.toNat) := by
    intro hc
    simp only [readBytes, pySlice, List.length_drop, List.length_take, sliceBound]
    split_ifs <;> omega
  refine ⟨rfl, hlen, ?_, ?_⟩
  · intro hc hle
    rw [hlen hc]
    omega
  · simp only [readByte, normIdx, if_pos h0]
    by_cases hlt : index < (data.length : Int)
    · rw [if_pos hlt]
      simp only [exists_false, false_iff]
      constructor
      · rintro ⟨e, he⟩
        exact absurd he (by simp)
      · intro hge
        omega
    · rw [if_neg hlt]
      constructor
      · intro _
        omega
      · intro _
        exact ⟨.indexError, rfl⟩

/-- Witness for `read_bytes_slice_behavior` at the buffer `[3, 4]`, cursor
`0`, count `2`. -/
theorem read_bytes_slice_behavior_witness :
    (readBytes [3, 4] 0 2).2 = 2 ∧ ((readBytes [3, 4] 0 2).1).length = 2 := by
  have h := read_bytes_slice_behavior [3, 4] 0 2 (by decide)
  constructor
  · rw [h.1]
    decide
  · rw [h.2.2.1 (by decide) (by decide)]
    decide

/-- C2: the claim states every out-of-data condition during accumulation
ends in the marker-record acceptance or a fatal `ParsingError`; but when
the buffer ends inside a token (here after a lone `STR` tag byte, so the
length byte is missing) `read_record` raises `IndexError` instead, and
`read_records` swallows that as clean end-of-stream, so the decode loop
finishes without any error. -/
theorem read_record_midtoken_truncation_cex :
    readRecord 2 [7] 0 = .error .indexError
    ∧ PyErr.indexError ≠ PyErr.parsing prematureMsg
    ∧ buildLoop 2 2 [7] 0 700 = .ok [] :=
  ⟨rfl, by decide, rfl⟩

/-- C2 (amended): when the cursor is exhausted at a token boundary (the
loop-top `has_data` test), the partially built record is returned exactly
when its first token's value is a data-end marker, and otherwise the
decode fails with the fatal `ParsingError` "pre-mature end of data"; an
`IndexError` from a truncation inside a token is instead absorbed by
`read_records` as clean end of stream. -/
theorem read_record_exhaustion_dichotomy :
    (∀ (fuel : Nat) (data : List Nat) (index : Int) (values : List Token)
        (etype : List (List Nat)) (lvl : Int),
      ¬ index < (data.length : Int) →
      readRecordAux (fuel + 1) data index values etype lvl =
        (if isEndMarkerRecord values then .ok (values, index)
         else .error (.parsing prematureMsg)))
    ∧ (∀ (recFuel fuel : Nat) (data : List Nat) (index : Int) (version : Int),
      readRecord recFuel data index = .error .indexError →
      buildLoop recFuel (fuel + 1) data index version = .ok []) := by
  constructor
  · intro fuel data index values etype lvl h
    rw [readRecordAux, readRecordStep.eq_def, if_neg h]
    cases values with
    | nil => simp [isEndMarkerRecord]
    | cons t rest =>
      simp only [isEndMarkerRecord]
      by_cases hm : isEndMarkerVal t.value <;> simp [hm]
  · intro recFuel fuel data index version h
    rw [buildLoop]
    split
    · rw [h]
    · rfl

/-- Witness for `read_record_exhaustion_dichotomy`: a cursor at the end of
the buffer with an accumulated marker token returns the partial record,
and the truncated-buffer `IndexError` of `read_record 2 [7] 0` makes the
stream end cleanly. -/
theorem read_record_exhaustion_dichotomy_witness :
    readRecordAux 1 [7] 1 [⟨TagSTR, .vStr endOfAcisData⟩] [] 0 =
      .ok ([⟨TagSTR, .vStr endOfAcisData⟩], 1)
    ∧ buildLoop 2 1 [7] 0 700 = .ok [] := by
  constructor
  · rw [read_record_exhaustion_dichotomy.1 0 [7] 1 [⟨TagSTR, .vStr endOfAcisData⟩] [] 0
      (by decide)]
    rfl
  · exact read_record_exhaustion_dichotomy.2 2 0 [7] 0 700 rfl

/-- C5: a record whose very first tag byte is unrecognised (here `0xff`)
makes the unknown-tag error path evaluate `values[0].value` on the empty
token list, raising `IndexError` before the diagnostic `ParsingError` is
built, and `read_records` then silently ends the stream; with at least one
accumulated token the intended diagnostic message is raised. -/
theorem read_record_unknown_first_tag_index_error :
    readRecord 2 [255] 0 = .error .indexError
    ∧ buildLoop 2 2 [255] 0 700 = .ok []
    ∧ readRecord 3 [11, 255] 0 =
        .error (.parsing (unknownTagMsg 255 (Value.vBool false))) :=
  ⟨rfl, rfl, rfl⟩

/-- C4: the claim states that an invalid-typed argument to `parse_sab`
fails with `ParsingError`; the source instead lets `b"".join` raise a
`TypeError` (its own explicit type re-check also raises `TypeError`), so
no `ParsingError` is involved. -/
theorem parse_sab_invalid_type_not_parsing_cex :
    parseSab 1 (.pyInt 0) = .error .typeError
    ∧ isParsingResult (parseSab 1 (.pyInt 0)) = false :=
  ⟨rfl, rfl⟩

/-- Python `b"".join` raises `TypeError` as soon as the sequence holds a
non-bytes-like item. -/
theorem joinChunks_error_of_bad_item (items : List PyVal)
    (h : items.all (fun it =>
      match it with
      | .pyBytes _ => true
      | .pyByteArr _ => true
      | _ => false) = false) :
    joinChunks items = .error .typeError := by
  induction items with
  | nil => simp at h
  | cons it rest ih =>
    cases it with
    | pyBytes b =>
      simp only [List.all_cons, Bool.true_and] at h
      rw [joinChunks, ih h]
    | pyByteArr b =>
      simp only [List.all_cons, Bool.true_and] at h
      rw [joinChunks, ih h]
    | pyList xs => rfl
    | pyNone => rfl
    | pyInt i => rfl

/-- C4 (amended): an argument that is neither a byte buffer nor a sequence
of byte buffers makes `parse_sab` fail with `TypeError` — not with
`ParsingError` as the claim states. -/
theorem parse_sab_invalid_type_raises_type_error (fuel : Nat) (b : PyVal)
    (h : validInput b = false) : parseSab fuel b = .error .typeError := by
  cases b with
  | pyBytes d => simp [validInput] at h
  | pyByteArr d => simp [validInput] at h
  | pyList items =>
    have hj : joinChunks items = .error .typeError :=
      joinChunks_error_of_bad_item items h
    rw [parseSab]
    simp only [toBytes, hj]
  | pyNone => rfl
  | pyInt i => rfl

/-- Witness for `parse_sab_invalid_type_raises_type_error` at a chunk
sequence containing a non-bytes item. -/
theorem parse_sab_invalid_type_raises_type_error_witness :
    validInput (.pyList [.pyBytes [1], .pyInt 7]) = false
    ∧ parseSab 1 (.pyList [.pyBytes [1], .pyInt 7]) = .error .typeError :=
  ⟨rfl, parse_sab_invalid_type_raises_type_error 1 (.pyList [.pyBytes [1], .pyInt 7]) rfl⟩

/-- Appending a token that is neither `SUBTYPE_START` nor `SUBTYPE_END`
leaves the subtype level unchanged. -/
theorem subLevelAfter_append_other (l : List Token) (t : Token)
    (h1 : t.tag ≠ TagSUBTYPE_START) (h2 : t.tag ≠ TagSUBTYPE_END) :
    subLevelAfter (l ++ [t]) = subLevelAfter l := by
  simp [subLevelAfter, subStarts, subEnds, List.countP_append, List.countP_cons, h1, h2]

/-- Appending a `SUBTYPE_START` token raises the subtype level by one. -/
theorem subLevelAfter_append_start (l : List Token) (v : Value) :
    subLevelAfter (l ++ [⟨TagSUBTYPE_START, v⟩]) = subLevelAfter l + 1 := by
  simp [subLevelAfter, subStarts, subEnds, List.countP_append, List.countP_cons,
    TagSUBTYPE_START, TagSUBTYPE_END]
  omega

/-- Appending a `SUBTYPE_END` token lowers the subtype level by one. -/
theorem subLevelAfter_append_end (l : List Token) (v : Value) :
    subLevelAfter (l ++ [⟨TagSUBTYPE_END, v⟩]) = subLevelAfter l - 1 := by
  simp [subLevelAfter, subStarts, subEnds, List.countP_append, List.countP_cons,
    TagSUBTYPE_START, TagSUBTYPE_END]
  omega

/-- The subtype-token level bookkeeping is preserved by appending a token
whose value is correct for its tag. -/
theorem subtypeLevelsOk_append (l : List Token) (t : Token)
    (hl : subtypeLevelsOk l)
    (hs : t.tag = TagSUBTYPE_START → t.value = .vInt (1 + subLevelAfter l))
    (he : t.tag = TagSUBTYPE_END → t.value = .vInt (subLevelAfter l)) :
    subtypeLevelsOk (l ++ [t]) := by
  intro j hj
  rw [List.length_append, List.length_singleton] at hj
  by_cases hlt : j < l.length
  · have hget : (l ++ [t]).get ⟨j, by simp; omega⟩ = l.get ⟨j, hlt⟩ := by
      simp only [List.get_eq_getElem]
      exact List.getElem_append_left hlt
    have htake : (l ++ [t]).take j = l.take j := by
      rw [List.take_append_eq_append_take]
      have hz : j - l.length = 0 := by omega
      rw [hz]
      simp
    have := hl j hlt
    constructor
    · intro hts
      rw [hget] at hts ⊢
      rw [htake]
      exact this.1 hts
    · intro hte
      rw [hget] at hte ⊢
      rw [htake]
      exact this.2 hte
  · have hj' : j = l.length := by omega
    subst hj'
    have hget : (l ++ [t]).get ⟨l.length, by simp⟩ = t := by
      simp only [List.get_eq_getElem]
      exact List.getElem_concat_length l t l.length rfl (by simp)
    have htake : (l ++ [t]).take l.length = l := List.take_left l [t]
    constructor
    · intro hts
      rw [hget] at hts ⊢
      rw [htake]
      exact hs hts
    · intro hte
      rw [hget] at hte ⊢
      rw [htake]
      exact he hte

/-- Bundled invariant step for a non-subtype token. -/
theorem subtypeInv_step_other (values : List Token) (lvl : Int) (t : Token)
    (hv : subtypeLevelsOk values) (hl : lvl = subLevelAfter values)
    (h1 : t.tag ≠ TagSUBTYPE_START) (h2 : t.tag ≠ TagSUBTYPE_END) :
    subtypeLevelsOk (values ++ [t]) ∧ lvl = subLevelAfter (values ++ [t]) :=
  ⟨subtypeLevelsOk_append values t hv (fun h => absurd h h1) (fun h => absurd h h2),
   by rw [subLevelAfter_append_other values t h1 h2]; exact hl⟩

/-- Bundled invariant step for a `SUBTYPE_START` token: the emitted value
is the post-increment level. -/
theorem subtypeInv_step_start (values : List Token) (lvl : Int)
    (hv : subtypeLevelsOk values) (hl : lvl = subLevelAfter values) :
    subtypeLevelsOk (values ++ [⟨TagSUBTYPE_START, .vInt (lvl + 1)⟩])
      ∧ lvl + 1 = subLevelAfter (values ++ [⟨TagSUBTYPE_START, .vInt (lvl + 1)⟩]) := by
  constructor
  · refine subtypeLevelsOk_append values _ hv (fun _ => ?_) (fun h => ?_)
    · rw [hl, Int.add_comm]
    · simp [TagSUBTYPE_START, TagSUBTYPE_END] at h
  · rw [subLevelAfter_append_start]
    omega

/-- Bundled invariant step for a `SUBTYPE_END` token: the emitted value is
the pre-decrement level. -/
theorem subtypeInv_step_end (values : List Token) (lvl : Int)
    (hv : subtypeLevelsOk values) (hl : lvl = subLevelAfter values) :
    subtypeLevelsOk (values ++ [⟨TagSUBTYPE_END, .vInt lvl⟩])
      ∧ lvl - 1 = subLevelAfter (values ++ [⟨TagSUBTYPE_END, .vInt lvl⟩]) := by
  constructor
  · refine subtypeLevelsOk_append values _ hv (fun h => ?_) (fun _ => ?_)
    · simp [TagSUBTYPE_START, TagSUBTYPE_END] at h
    · rw [hl]
  · rw [subLevelAfter_append_end]
    omega

set_option maxHeartbeats 1000000 in
/-- A loop iteration that finishes with a completed record always returns
the accumulated token list itself (both the `RECORD_END` return and the
end-marker acceptance return `values`). -/
theorem readRecordStep_done_ok (data : List Nat) (index : Int)
    (values : List Token) (etype : List (List Nat)) (lvl : Int)
    (res : List Token) (i' : Int)
    (h : readRecordStep data index values etype lvl = .done (.ok (res, i'))) :
    res = values := by
  rw [readRecordStep.eq_def] at h
  by_cases hd : index < (data.length : Int)
  · rw [if_pos hd] at h
    cases hb : readByte data index with
    | error e =>
      rw [hb] at h
      simp at h
    | ok p =>
      obtain ⟨tag, i1⟩ := p
      rw [hb] at h
      simp only [] at h
      by_cases hc1 : (tag == TagINT) = true
      · rw [if_pos hc1] at h
        cases hr : readInt data i1 with
        | error e =>
          rw [hr] at h
          simp at h
        | ok q =>
          obtain ⟨w, i2⟩ := q
          rw [hr] at h
          simp at h
      · rw [if_neg hc1] at h
        by_cases hc2 : (tag == TagDOUBLE) = true
        · rw [if_pos hc2] at h
          cases hr : readFloat data i1 with
          | error e =>
            rw [hr] at h
            simp at h
          | ok q =>
            obtain ⟨w, i2⟩ := q
            rw [hr] at h
            simp at h
        · rw [if_neg hc2] at h
          by_cases hc3 : (tag == TagSTR) = true
          · rw [if_pos hc3] at h
            cases hr : readByte data i1 with
            | error e =>
              rw [hr] at h
              simp at h
            | ok q =>
              obtain ⟨w, i2⟩ := q
              rw [hr] at h
              simp at h
          · rw [if_neg hc3] at h
            by_cases hc4 : (tag == TagPOINTER) = true
            · rw [if_pos hc4] at h
              cases hr : readInt data i1 with
              | error e =>
                rw [hr] at h
                simp at h
              | ok q =>
                obtain ⟨w, i2⟩ := q
                rw [hr] at h
                simp at h
            · rw [if_neg hc4] at h
              by_cases hc5 : (tag == TagBOOL_FALSE) = true
              · rw [if_pos hc5] at h
                simp at h
              · rw [if_neg hc5] at h
                by_cases hc6 : (tag == TagBOOL_TRUE) = true
                · rw [if_pos hc6] at h
                  simp at h
                · rw [if_neg hc6] at h
                  by_cases hc7 : (tag == TagLONG_STR) = true
                  · rw [if_pos hc7] at h
                    cases hr : readInt data i1 with
                    | error e =>
                      rw [hr] at h
                      simp at h
                    | ok q =>
                      obtain ⟨w, i2⟩ := q
                      rw [hr] at h
                      simp at h
                  · rw [if_neg hc7] at h
                    by_cases hc8 : (tag == TagENTITY_TYPE_EX) = true
                    · rw [if_pos hc8] at h
                      cases hr : readByte data i1 with
                      | error e =>
                        rw [hr] at h
                        simp at h
                      | ok q =>
                        obtain ⟨w, i2⟩ := q
                        rw [hr] at h
                        simp at h
                    · rw [if_neg hc8] at h
                      by_cases hc9 : (tag == TagENTITY_TYPE) = true
                      · rw [if_pos hc9] at h
                        cases hr : readByte data i1 with
                        | error e =>
                          rw [hr] at h
                          simp at h
                        | ok q =>
                          obtain ⟨w, i2⟩ := q
                          rw [hr] at h
                          simp at h
                      · rw [if_neg hc9] at h
                        by_cases hc10 : (tag == TagLOCATION_VEC) = true
                        · rw [if_pos hc10] at h
                          cases hr : readFloats3 data i1 with
                          | error e =>
                            rw [hr] at h
                            simp at h
                          | ok q =>
                            obtain ⟨w, i2⟩ := q
                            rw [hr] at h
                            simp at h
                        · rw [if_neg hc10] at h
                          by_cases hc11 : (tag == TagDIRECTION_VEC) = true
                          · rw [if_pos hc11] at h
                            cases hr : readFloats3 data i1 with
                            | error e =>
                              rw [hr] at h
                              simp at h
                            | ok q =>
                              obtain ⟨w, i2⟩ := q
                              rw [hr] at h
                              simp at h
                          · rw [if_neg hc11] at h
                            by_cases hc12 : (tag == TagUNKNOWN_0x15) = true
                            · rw [if_pos hc12] at h
                              cases hr : readInt data i1 with
                              | error e =>
                                rw [hr] at h
                                simp at h
                              | ok q =>
                                obtain ⟨w, i2⟩ := q
                                rw [hr] at h
                                simp at h
                            · rw [if_neg hc12] at h
                              by_cases hc13 : (tag == TagUNKNOWN_0x17) = true
                              · rw [if_pos hc13] at h
                                cases hr : readFloat data i1 with
                                | error e =>
                                  rw [hr] at h
                                  simp at h
                                | ok q =>
                                  obtain ⟨w, i2⟩ := q
                                  rw [hr] at h
                                  simp at h
                              · rw [if_neg hc13] at h
                                by_cases hc14 : (tag == TagSUBTYPE_START) = true
                                · rw [if_pos hc14] at h
                                  simp at h
                                · rw [if_neg hc14] at h
                                  by_cases hc15 : (tag == TagSUBTYPE_END) = true
                                  · rw [if_pos hc15] at h
                                    simp at h
                                  · rw [if_neg hc15] at h
                                    by_cases hc16 : (tag == TagRECORD_END) = true
                                    · rw [if_pos hc16] at h
                                      simp at h
                                      exact h.1.symm
                                    · rw [if_neg hc16] at h
                                      cases values with
                                      | nil => simp at h
                                      | cons t rest => simp at h
  · rw [if_neg hd] at h
    cases values with
    | nil => simp at h
    | cons t rest =>
      simp only [] at h
      by_cases hm : isEndMarkerVal t.value = true
      · rw [if_pos hm] at h
        simp at h
        exact h.1.symm
      · rw [if_neg hm] at h
        simp at h

set_option maxHeartbeats 1000000 in
/-- A continuing loop iteration preserves the subtype bookkeeping
invariant: the level equals starts minus ends of the accumulated tokens,
and every accumulated subtype token carries its correct level. -/
theorem readRecordStep_next_inv (data : List Nat) (index : Int)
    (values : List Token) (etype : List (List Nat)) (lvl : Int)
    (i : Int) (v : List Token) (e : List (List Nat)) (l : Int)
    (h : readRecordStep data index values etype lvl = .next i v e l)
    (hv : subtypeLevelsOk values) (hl : lvl = subLevelAfter values) :
    subtypeLevelsOk v ∧ l = subLevelAfter v := by
  rw [readRecordStep.eq_def] at h
  by_cases hd : index < (data.length : Int)
  · rw [if_pos hd] at h
    cases hb : readByte data index with
    | error er =>
      rw [hb] at h
      simp at h
    | ok p =>
      obtain ⟨tag, i1⟩ := p
      rw [hb] at h
      simp only [] at h
      by_cases hc1 : (tag == TagINT) = true
      · rw [if_pos hc1] at h
        cases hr : readInt data i1 with
        | error e =>
          rw [hr] at h
          simp at h
        | ok q =>
          obtain ⟨w, i2⟩ := q
          rw [hr] at h
          simp at h
          obtain ⟨h1, h2, h3, h4⟩ := h
          subst h2
          subst h4
          refine subtypeInv_step_other values lvl _ hv hl ?_ ?_
          · show tag ≠ TagSUBTYPE_START
            rw [beq_iff_eq] at hc1
            rw [hc1]
            decide
          · show tag ≠ TagSUBTYPE_END
            rw [beq_iff_eq] at hc1
            rw [hc1]
            decide
      · rw [if_neg hc1] at h
        by_cases hc2 : (tag == TagDOUBLE) = true
        · rw [if_pos hc2] at h
          cases hr : readFloat data i1 with
          | error e =>
            rw [hr] at h
            simp at h
          | ok q =>
            obtain ⟨w, i2⟩ := q
            rw [hr] at h
            simp at h
            obtain ⟨h1, h2, h3, h4⟩ := h
            subst h2
            subst h4
            refine subtypeInv_step_other values lvl _ hv hl ?_ ?_
            · show tag ≠ TagSUBTYPE_START
              rw [beq_iff_eq] at hc2
              rw [hc2]
              decide
            · show tag ≠ TagSUBTYPE_END
              rw [beq_iff_eq] at hc2
              rw [hc2]
              decide
        · rw [if_neg hc2] at h
          by_cases hc3 : (tag == TagSTR) = true
          · rw [if_pos hc3] at h
            cases hr : readByte data i1 with
            | error e =>
              rw [hr] at h
              simp at h
            | ok q =>
              obtain ⟨w, i2⟩ := q
              rw [hr] at h
              simp at h
              obtain ⟨h1, h2, h3, h4⟩ := h
              subst h2
              subst h4
              refine subtypeInv_step_other values lvl _ hv hl ?_ ?_
              · show tag ≠ TagSUBTYPE_START
                rw [beq_iff_eq] at hc3
                rw [hc3]
                decide
              · show tag ≠ TagSUBTYPE_END
                rw [beq_iff_eq] at hc3
                rw [hc3]
                decide
          · rw [if_neg hc3] at h
            by_cases hc4 : (tag == TagPOINTER) = true
            · rw [if_pos hc4] at h
              cases hr : readInt data i1 with
              | error e =>
                rw [hr] at h
                simp at h
              | ok q =>
                obtain ⟨w, i2⟩ := q
                rw [hr] at h
                simp at h
                obtain ⟨h1, h2, h3, h4⟩ := h
                subst h2
                subst h4
                refine subtypeInv_step_other values lvl _ hv hl ?_ ?_
                · show tag ≠ TagSUBTYPE_START
                  rw [beq_iff_eq] at hc4
                  rw [hc4]
                  decide
                · show tag ≠ TagSUBTYPE_END
                  rw [beq_iff_eq] at hc4
                  rw [hc4]
                  decide
            · rw [if_neg hc4] at h
              by_cases hc5 : (tag == TagBOOL_FALSE) = true
              · rw [if_pos hc5] at h
                simp at h
                obtain ⟨h1, h2, h3, h4⟩ := h
                subst h2
                subst h4
                refine subtypeInv_step_other values lvl _ hv hl ?_ ?_
                · show tag ≠ TagSUBTYPE_START
                  rw [beq_iff_eq] at hc5
                  rw [hc5]
                  decide
                · show tag ≠ TagSUBTYPE_END
                  rw [beq_iff_eq] at hc5
                  rw [hc5]
                  decide
              · rw [if_neg hc5] at h
                by_cases hc6 : (tag == TagBOOL_TRUE) = true
                · rw [if_pos hc6] at h
                  simp at h
                  obtain ⟨h1, h2, h3, h4⟩ := h
                  subst h2
                  subst h4
                  refine subtypeInv_step_other values lvl _ hv hl ?_ ?_
                  · show tag ≠ TagSUBTYPE_START
                    rw [beq_iff_eq] at hc6
                    rw [hc6]
                    decide
                  · show tag ≠ TagSUBTYPE_END
                    rw [beq_iff_eq] at hc6
                    rw [hc6]
                    decide
                · rw [if_neg hc6] at h
                  by_cases hc7 : (tag == TagLONG_STR) = true
                  · rw [if_pos hc7] at h
                    cases hr : readInt data i1 with
                    | error e =>
                      rw [hr] at h
                      simp at h
                    | ok q =>
                      obtain ⟨w, i2⟩ := q
                      rw [hr] at h
                      simp at h
                      obtain ⟨h1, h2, h3, h4⟩ := h
                      subst h2
                      subst h4
                      refine subtypeInv_step_other values lvl _ hv hl ?_ ?_
                      · show tag ≠ TagSUBTYPE_START
                        rw [beq_iff_eq] at hc7
                        rw [hc7]
                        decide
                      · show tag ≠ TagSUBTYPE_END
                        rw [beq_iff_eq] at hc7
                        rw [hc7]
                        decide
                  · rw [if_neg hc7] at h
                    by_cases hc8 : (tag == TagENTITY_TYPE_EX) = true
                    · rw [if_pos hc8] at h
                      cases hr : readByte data i1 with
                      | error e =>
                        rw [hr] at h
                        simp at h
                      | ok q =>
                        obtain ⟨w, i2⟩ := q
                        rw [hr] at h
                        simp at h
                        obtain ⟨h1, h2, h3, h4⟩ := h
                        subst h2
                        subst h4
                        exact ⟨hv, hl⟩
                    · rw [if_neg hc8] at h
                      by_cases hc9 : (tag == TagENTITY_TYPE) = true
                      · rw [if_pos hc9] at h
                        cases hr : readByte data i1 with
                        | error e =>
                          rw [hr] at h
                          simp at h
                        | ok q =>
                          obtain ⟨w, i2⟩ := q
                          rw [hr] at h
                          simp at h
                          obtain ⟨h1, h2, h3, h4⟩ := h
                          subst h2
                          subst h4
                          refine subtypeInv_step_other values lvl _ hv hl ?_ ?_
                          · show tag ≠ TagSUBTYPE_START
                            rw [beq_iff_eq] at hc9
                            rw [hc9]
                            decide
                          · show tag ≠ TagSUBTYPE_END
                            rw [beq_iff_eq] at hc9
                            rw [hc9]
                            decide
                      · rw [if_neg hc9] at h
                        by_cases hc10 : (tag == TagLOCATION_VEC) = true
                        · rw [if_pos hc10] at h
                          cases hr : readFloats3 data i1 with
                          | error e =>
                            rw [hr] at h
                            simp at h
                          | ok q =>
                            obtain ⟨w, i2⟩ := q
                            rw [hr] at h
                            simp at h
                            obtain ⟨h1, h2, h3, h4⟩ := h
                            subst h2
                            subst h4
                            refine subtypeInv_step_other values lvl _ hv hl ?_ ?_
                            · show tag ≠ TagSUBTYPE_START
                              rw [beq_iff_eq] at hc10
                              rw [hc10]
                              decide
                            · show tag ≠ TagSUBTYPE_END
                              rw [beq_iff_eq] at hc10
                              rw [hc10]
                              decide
                        · rw [if_neg hc10] at h
                          by_cases hc11 : (tag == TagDIRECTION_VEC) = true
                          · rw [if_pos hc11] at h
                            cases hr : readFloats3 data i1 with
                            | error e =>
                              rw [hr] at h
                              simp at h
                            | ok q =>
                              obtain ⟨w, i2⟩ := q
                              rw [hr] at h
                              simp at h
                              obtain ⟨h1, h2, h3, h4⟩ := h
                              subst h2
                              subst h4
                              refine subtypeInv_step_other values lvl _ hv hl ?_ ?_
                              · show tag ≠ TagSUBTYPE_START
                                rw [beq_iff_eq] at hc11
                                rw [hc11]
                                decide
                              · show tag ≠ TagSUBTYPE_END
                                rw [beq_iff_eq] at hc11
                                rw [hc11]
                                decide
                          · rw [if_neg hc11] at h
                            by_cases hc12 : (tag == TagUNKNOWN_0x15) = true
                            · rw [if_pos hc12] at h
                              cases hr : readInt data i1 with
                              | error e =>
                                rw [hr] at h
                                simp at h
                              | ok q =>
                                obtain ⟨w, i2⟩ := q
                                rw [hr] at h
                                simp at h
                                obtain ⟨h1, h2, h3, h4⟩ := h
                                subst h2
                                subst h4
                                refine subtypeInv_step_other values lvl _ hv hl ?_ ?_
                                · show tag ≠ TagSUBTYPE_START
                                  rw [beq_iff_eq] at hc12
                                  rw [hc12]
                                  decide
                                · show tag ≠ TagSUBTYPE_END
                                  rw [beq_iff_eq] at hc12
                                  rw [hc12]
                                  decide
                            · rw [if_neg hc12] at h
                              by_cases hc13 : (tag == TagUNKNOWN_0x17) = true
                              · rw [if_pos hc13] at h
                                cases hr : readFloat data i1 with
                                | error e =>
                                  rw [hr] at h
                                  simp at h
                                | ok q =>
                                  obtain ⟨w, i2⟩ := q
                                  rw [hr] at h
                                  simp at h
                                  obtain ⟨h1, h2, h3, h4⟩ := h
                                  subst h2
                                  subst h4
                                  refine subtypeInv_step_other values lvl _ hv hl ?_ ?_
                                  · show tag ≠ TagSUBTYPE_START
                                    rw [beq_iff_eq] at hc13
                                    rw [hc13]
                                    decide
                                  · show tag ≠ TagSUBTYPE_END
                                    rw [beq_iff_eq] at hc13
                                    rw [hc13]
                                    decide
                              · rw [if_neg hc13] at h
                                by_cases hc14 : (tag == TagSUBTYPE_START) = true
                                · rw [if_pos hc14] at h
                                  simp at h
                                  obtain ⟨h1, h2, h3, h4⟩ := h
                                  rw [beq_iff_eq] at hc14
                                  subst hc14
                                  subst h2
                                  subst h4
                                  exact subtypeInv_step_start values lvl hv hl
                                · rw [if_neg hc14] at h
                                  by_cases hc15 : (tag == TagSUBTYPE_END) = true
                                  · rw [if_pos hc15] at h
                                    simp at h
                                    obtain ⟨h1, h2, h3, h4⟩ := h
                                    rw [beq_iff_eq] at hc15
                                    subst hc15
                                    subst h2
                                    subst h4
                                    exact subtypeInv_step_end values lvl hv hl
                                  · rw [if_neg hc15] at h
                                    by_cases hc16 : (tag == TagRECORD_END) = true
                                    · rw [if_pos hc16] at h
                                      simp at h
                                    · rw [if_neg hc16] at h
                                      cases values with
                                      | nil => simp at h
                                      | cons t rest => simp at h
  · rw [if_neg hd] at h
    cases values with
    | nil => simp at h
    | cons t rest =>
      simp only [] at h
      by_cases hm : isEndMarkerVal t.value = true
      · rw [if_pos hm] at h
        simp at h
      · rw [if_neg hm] at h
        simp at h

/-- Any record returned by the accumulation loop satisfies the subtype
bookkeeping, provided the incoming accumulator does. -/
theorem readRecordAux_subtypeOk (data : List Nat) (r : List Token) (i' : Int) :
    ∀ (fuel : Nat) (index : Int) (values : List Token)
      (etype : List (List Nat)) (lvl : Int),
      subtypeLevelsOk values → lvl = subLevelAfter values →
      readRecordAux fuel data index values etype lvl = .ok (r, i') →
      subtypeLevelsOk r := by
  intro fuel
  induction fuel with
  | zero =>
    intro index values etype lvl hv hl h
    exact absurd h (by simp [readRecordAux])
  | succ fuel ih =>
    intro index values etype lvl hv hl h
    rw [readRecordAux] at h
    cases hstep : readRecordStep data index values etype lvl with
    | done res =>
      rw [hstep] at h
      subst h
      have := readRecordStep_done_ok data index values etype lvl r i' hstep
      subst this
      exact hv
    | next i v e l =>
      rw [hstep] at h
      have hinv := readRecordStep_next_inv data index values etype lvl i v e l hstep hv hl
      exact ih i v e l hinv.1 hinv.2 h

/-- C6: the claim states the subtype level is never negative and no
subtype token is emitted with a non-positive level; but a record whose
tag stream is `SUBTYPE_END, SUBTYPE_END, RECORD_END` is decoded
successfully into two `SUBTYPE_END` tokens carrying levels `0` and `-1`
(the counter reaches `-2` after the second decrement). -/
theorem subtype_level_goes_negative_cex :
    readRecord 4 [16, 16, 17] 0 =
      .ok ([⟨TagSUBTYPE_END, .vInt 0⟩, ⟨TagSUBTYPE_END, .vInt (-1)⟩], 3) :=
  rfl

/-- C6 (amended): the `subtype_level` counter starts at `0` (the driver
`readRecord` seeds the loop with level `0`); every `SUBTYPE_START` token
of a returned record carries one plus the number of starts minus ends
among the preceding tokens, and every `SUBTYPE_END` token carries starts
minus ends of the preceding tokens — nothing keeps the counter
non-negative: a record with unmatched `SUBTYPE_END` tags drives it
negative and emits zero or negative level values. -/
theorem read_record_subtype_levels (fuel : Nat) (data : List Nat)
    (index : Int) (r : List Token) (i' : Int)
    (h : readRecord fuel data index = .ok (r, i')) :
    subtypeLevelsOk r := by
  refine readRecordAux_subtypeOk data r i' fuel index [] [] 0 ?_ ?_ h
  · intro j hj
    simp at hj
  · rfl

/-- Witness for `read_record_subtype_levels` on the record
`SUBTYPE_START, RECORD_END`, whose single subtype token carries level 1. -/
theorem read_record_subtype_levels_witness :
    readRecord 3 [15, 17] 0 = .ok ([⟨TagSUBTYPE_START, .vInt 1⟩], 2)
    ∧ subtypeLevelsOk [⟨TagSUBTYPE_START, .vInt 1⟩] :=
  ⟨rfl, read_record_subtype_levels 3 [15, 17] 0 [⟨TagSUBTYPE_START, .vInt 1⟩] 2 rfl⟩

/-- A successful effectful map preserves the list length. -/
theorem exMapM_ok_length {α β : Type} {f : α → Except PyErr β} :
    ∀ {l : List α} {l' : List β}, exMapM f l = .ok l' → l'.length = l.length := by
  intro l
  induction l with
  | nil =>
    intro l' h
    rw [exMapM] at h
    injection h with h'
    subst h'
    rfl
  | cons a as ih =>
    intro l' h
    rw [exMapM] at h
    cases hf : f a with
    | error e => rw [hf] at h; exact Except.noConfusion h
    | ok b =>
      rw [hf] at h
      cases hm : exMapM f as with
      | error e => rw [hm] at h; exact Except.noConfusion h
      | ok bs =>
        rw [hm] at h
        injection h with h'
        subst h'
        simp [ih hm]

/-- Position-wise reading of a successful effectful map. -/
theorem exMapM_ok_get? {α β : Type} {f : α → Except PyErr β} :
    ∀ {l : List α} {l' : List β}, exMapM f l = .ok l' →
      ∀ (i : Nat) (a : α), l.get? i = some a →
        ∃ b, l'.get? i = some b ∧ f a = .ok b := by
  intro l
  induction l with
  | nil =>
    intro l' h i a ha
    simp at ha
  | cons x as ih =>
    intro l' h i a ha
    rw [exMapM] at h
    cases hf : f x with
    | error e => rw [hf] at h; exact Except.noConfusion h
    | ok b =>
      rw [hf] at h
      cases hm : exMapM f as with
      | error e => rw [hm] at h; exact Except.noConfusion h
      | ok bs =>
        rw [hm] at h
        injection h with h'
        subst h'
        cases i with
        | zero =>
          simp at ha
          subst ha
          exact ⟨b, rfl, hf⟩
        | succ i =>
          simp only [List.get?] at ha ⊢
          exact ih hm i a ha

/-- Position-wise source of an element of a successful effectful map. -/
theorem exMapM_ok_get?_rev {α β : Type} {f : α → Except PyErr β} :
    ∀ {l : List α} {l' : List β}, exMapM f l = .ok l' →
      ∀ (i : Nat) (b : β), l'.get? i = some b →
        ∃ a, l.get? i = some a ∧ f a = .ok b := by
  intro l
  induction l with
  | nil =>
    intro l' h i b hb
    rw [exMapM] at h
    injection h with h'
    subst h'
    simp at hb
  | cons x as ih =>
    intro l' h i b hb
    rw [exMapM] at h
    cases hf : f x with
    | error e => rw [hf] at h; exact Except.noConfusion h
    | ok b0 =>
      rw [hf] at h
      cases hm : exMapM f as with
      | error e => rw [hm] at h; exact Except.noConfusion h
      | ok bs =>
        rw [hm] at h
        injection h with h'
        subst h'
        cases i with
        | zero =>
          simp at hb
          subst hb
          exact ⟨x, rfl, hf⟩
        | succ i =>
          simp only [List.get?] at hb ⊢
          exact ih hm i b hb

/-- Resolution of a non-negative in-range raw index targets exactly that
list position. -/
theorem ptr_vInt_of_nonneg (n : Nat) (k : Int) (h0 : 0 ≤ k) (hn : k < (n : Int)) :
    ptr n (.vInt k) = .ok (.idx k.toNat) := by
  have hk : ¬ k = -1 := by omega
  simp [ptr, pyEqNegOne, pyIndexVal, normIdx, hk, h0, hn]

/-- Resolution of the raw index `-1` is the null sentinel. -/
theorem ptr_vInt_neg1 (n : Nat) : ptr n (.vInt (-1)) = .ok .null := rfl

/-- Resolution of a negative in-range raw index (other than `-1`) targets
the position counted from the end of the list, Python style. -/
theorem ptr_vInt_neg (n : Nat) (k : Int) (hlo : -(n : Int) ≤ k) (hhi : k < -1) :
    ptr n (.vInt k) = .ok (.idx (n - (-k).toNat)) := by
  have hk : ¬ k = -1 := by omega
  have h0 : ¬ 0 ≤ k := by omega
  have hle : -k ≤ (n : Int) := by omega
  simp [ptr, pyEqNegOne, pyIndexVal, normIdx, hk, h0, hle]

/-- A raw integer index makes `ptr` fail exactly when it is not `-1` and
lies outside the Python index range `[-n, n)`. -/
theorem ptr_vInt_error_iff (n : Nat) (k : Int) :
    (∃ er, ptr n (.vInt k) = .error er)
      ↔ (k ≠ -1 ∧ ((n : Int) ≤ k ∨ k < -(n : Int))) := by
  constructor
  · rintro ⟨er, her⟩
    by_contra hcon
    rw [not_and_or] at hcon
    rcases hcon with hcon | hcon
    · push_neg at hcon
      subst hcon
      rw [ptr_vInt_neg1] at her
      exact Except.noConfusion her
    · push_neg at hcon
      obtain ⟨hup, hlo⟩ := hcon
      by_cases hk : k = -1
      · subst hk
        rw [ptr_vInt_neg1] at her
        exact Except.noConfusion her
      · by_cases h0 : 0 ≤ k
        · rw [ptr_vInt_of_nonneg n k h0 hup] at her
          exact Except.noConfusion her
        · have hhi : k < -1 := by omega
          rw [ptr_vInt_neg n k hlo hhi] at her
          exact Except.noConfusion her
  · rintro ⟨hk, hrange⟩
    refine ⟨.indexError, ?_⟩
    have h1 : pyEqNegOne (.vInt k) = false := by simp [pyEqNegOne, hk]
    have h2 : normIdx n k = none := by
      rw [normIdx]
      by_cases h0 : 0 ≤ k
      · have : ¬ k < (n : Int) := by omega
        rw [if_pos h0, if_neg this]
      · have : ¬ -k ≤ (n : Int) := by omega
        rw [if_neg h0, if_neg this]
    simp [ptr, h1, pyIndexVal, h2]

/-- The resolution of a raw integer index is the null sentinel exactly
when the index is `-1`. -/
theorem ptr_vInt_ok_null_iff (n : Nat) (k : Int) (r : EntityRef)
    (h : ptr n (.vInt k) = .ok r) : r = .null ↔ k = -1 := by
  by_cases hk : k = -1
  · subst hk
    rw [ptr_vInt_neg1] at h
    injection h with h'
    subst h'
    simp
  · have h1 : pyEqNegOne (.vInt k) = false := by simp [pyEqNegOne, hk]
    rw [ptr, h1] at h
    simp only [Bool.false_eq_true, if_false, pyIndexVal] at h
    cases hn : normIdx n k with
    | none => rw [hn] at h; exact Except.noConfusion h
    | some p =>
      rw [hn] at h
      injection h with h'
      subst h'
      simp [hk]

/-- Decomposition of a successful entity resolution into its parts. -/
theorem resolveEntity_ok_parts (n : Nat) (e e' : SabEntity)
    (h : resolveEntity n e = .ok e') :
    ∃ a d, ptr n e.attr_ptr = .ok a ∧ exMapM (resolveToken n) e.data = .ok d
      ∧ e' = { e with attributes := some a, attr_ptr := .vInt (-1), data := d } := by
  rw [resolveEntity.eq_def] at h
  cases h1 : ptr n e.attr_ptr with
  | error er => rw [h1] at h; exact Except.noConfusion h
  | ok a =>
    rw [h1] at h
    cases h2 : exMapM (resolveToken n) e.data with
    | error er => rw [h2] at h; exact Except.noConfusion h
    | ok d =>
      rw [h2] at h
      injection h with h'
      exact ⟨a, d, rfl, rfl, h'.symm⟩

/-- Token positions survive entity resolution, each rewritten by
`resolveToken`. -/
theorem resolveEntity_data_get (n : Nat) (e e' : SabEntity)
    (h : resolveEntity n e = .ok e') (j : Nat) (t : Token)
    (ht : e.data.get? j = some t) :
    ∃ t', e'.data.get? j = some t' ∧ resolveToken n t = .ok t' := by
  obtain ⟨a, d, _, hd, he⟩ := resolveEntity_ok_parts n e e' h
  subst he
  exact exMapM_ok_get? hd j t ht

/-- Reverse direction: a token of a resolved entity comes from the same
position of the unresolved entity. -/
theorem resolveEntity_data_get_rev (n : Nat) (e e' : SabEntity)
    (h : resolveEntity n e = .ok e') (j : Nat) (t' : Token)
    (ht' : e'.data.get? j = some t') :
    ∃ t, e.data.get? j = some t ∧ resolveToken n t = .ok t' := by
  obtain ⟨a, d, _, hd, he⟩ := resolveEntity_ok_parts n e e' h
  subst he
  exact exMapM_ok_get?_rev hd j t' ht'

/-- A resolved `POINTER`-tagged raw integer token becomes the entity
reference produced by `ptr`. -/
theorem resolveToken_ptr_vInt (n : Nat) (k : Int) (t' : Token)
    (h : resolveToken n ⟨TagPOINTER, .vInt k⟩ = .ok t') :
    ∃ r, ptr n (.vInt k) = .ok r ∧ t' = ⟨TagPOINTER, .vEntity r⟩ := by
  rw [resolveToken] at h
  simp only [beq_self_eq_true, if_true] at h
  cases hp : ptr n (.vInt k) with
  | error er => rw [hp] at h; exact Except.noConfusion h
  | ok r =>
    rw [hp] at h
    injection h with h'
    exact ⟨r, rfl, h'.symm⟩

/-- Any `POINTER`-tagged token of a resolved entity holds an entity
reference value. -/
theorem resolveToken_tag_ptr_shape (n : Nat) (t t' : Token)
    (h : resolveToken n t = .ok t') (htag : t'.tag = TagPOINTER) :
    ∃ r, t'.value = .vEntity r := by
  rw [resolveToken] at h
  by_cases hc : (t.tag == TagPOINTER) = true
  · rw [if_pos hc] at h
    cases hp : ptr n t.value with
    | error er => rw [hp] at h; exact Except.noConfusion h
    | ok r =>
      rw [hp] at h
      injection h with h'
      subst h'
      exact ⟨r, rfl⟩
  · rw [if_neg hc] at h
    injection h with h'
    subst h'
    rw [beq_iff_eq] at hc
    exact absurd htag hc

/-- C1: a successful pointer-resolution pass maps every `POINTER`-tagged
raw integer index `k` with `0 ≤ k < N` to exactly the entity at list
position `k`, maps raw index `-1` — and, among raw integer tokens, only
`-1` — to the shared null sentinel (likewise for the attribute pointer),
and leaves no `POINTER`-tagged token holding anything but an entity
reference. -/
theorem resolve_pointers_maps_indices (es es' : List SabEntity)
    (hres : resolvePointers es = .ok es') :
    es'.length = es.length
    ∧ (∀ (p : Nat) (e : SabEntity) (j : Nat) (k : Int),
        es.get? p = some e → e.data.get? j = some ⟨TagPOINTER, .vInt k⟩ →
        (0 ≤ k → k < (es.length : Int) →
          ∃ e', es'.get? p = some e'
            ∧ e'.data.get? j = some ⟨TagPOINTER, .vEntity (.idx k.toNat)⟩)
        ∧ (∀ (e' : SabEntity) (t' : Token), es'.get? p = some e' →
            e'.data.get? j = some t' → (t'.value = .vEntity .null ↔ k = -1)))
    ∧ (∀ (p : Nat) (e : SabEntity) (k : Int),
        es.get? p = some e → e.attr_ptr = .vInt k →
        ∃ e', es'.get? p = some e'
          ∧ (0 ≤ k → k < (es.length : Int) → e'.attributes = some (.idx k.toNat))
          ∧ (e'.attributes = some EntityRef.null ↔ k = -1))
    ∧ (∀ (p : Nat) (e' : SabEntity), es'.get? p = some e' →
        ∀ (j : Nat) (t' : Token), e'.data.get? j = some t' →
        t'.tag = TagPOINTER → ∃ r, t'.value = .vEntity r) := by
  have hres' : exMapM (resolveEntity es.length) es = .ok es' := hres
  refine ⟨exMapM_ok_length hres', ?_, ?_, ?_⟩
  · intro p e j k hp ht
    obtain ⟨e', hpe', hre⟩ := exMapM_ok_get? hres' p e hp
    constructor
    · intro h0 hn
      obtain ⟨t', ht', hrt⟩ := resolveEntity_data_get _ e e' hre j _ ht
      obtain ⟨r, hpr, ht'eq⟩ := resolveToken_ptr_vInt _ k t' hrt
      rw [ptr_vInt_of_nonneg _ k h0 hn] at hpr
      injection hpr with hr
      subst hr
      rw [ht'eq] at ht'
      exact ⟨e', hpe', ht'⟩
    · intro e'' t' hpe'' ht'
      rw [hpe'] at hpe''
      injection hpe'' with he''
      subst he''
      obtain ⟨t'', ht'', hrt⟩ := resolveEntity_data_get _ e e' hre j _ ht
      rw [ht''] at ht'
      injection ht' with ht'e
      subst ht'e
      obtain ⟨r, hpr, ht'eq⟩ := resolveToken_ptr_vInt _ k _ hrt
      have hnull := ptr_vInt_ok_null_iff _ k r hpr
      rw [ht'eq]
      simp only [Value.vEntity.injEq]
      exact hnull
  · intro p e k hp hap
    obtain ⟨e', hpe', hre⟩ := exMapM_ok_get? hres' p e hp
    obtain ⟨a, d, hpa, hd, he⟩ := resolveEntity_ok_parts _ e e' hre
    rw [hap] at hpa
    subst he
    refine ⟨_, hpe', ?_, ?_⟩
    · intro h0 hn
      rw [ptr_vInt_of_nonneg _ k h0 hn] at hpa
      injection hpa with h'
      simp [h'.symm]
    · have hnull := ptr_vInt_ok_null_iff _ k a hpa
      simp only [Option.some.injEq]
      exact hnull
  · intro p e' hpe' j t' ht' htag
    obtain ⟨e, hp, hre⟩ := exMapM_ok_get?_rev hres' p e' hpe'
    obtain ⟨t, ht, hrt⟩ := resolveEntity_data_get_rev _ e e' hre j t' ht'
    exact resolveToken_tag_ptr_shape _ t t' hrt htag

/-- Witness for `resolve_pointers_maps_indices` on a two-entity cycle:
entity 0 points at entity 1; the resolved token holds the reference to
position 1. -/
theorem resolve_pointers_maps_indices_witness :
    ∃ e',
      ([⟨.vStr [97], .vInt (-1), .vInt (-1), [⟨TagPOINTER, .vEntity (.idx 1)⟩], some .null⟩,
        ⟨.vStr [98], .vInt (-1), .vInt (-1), [⟨TagPOINTER, .vEntity .null⟩], some (.idx 0)⟩]
        : List SabEntity).get? 0 = some e'
      ∧ e'.data.get? 0 = some ⟨TagPOINTER, .vEntity (.idx 1)⟩ := by
  have h := resolve_pointers_maps_indices
    [⟨.vStr [97], .vInt (-1), .vInt (-1), [⟨TagPOINTER, .vInt 1⟩], none⟩,
     ⟨.vStr [98], .vInt 0, .vInt (-1), [⟨TagPOINTER, .vInt (-1)⟩], none⟩]
    [⟨.vStr [97], .vInt (-1), .vInt (-1), [⟨TagPOINTER, .vEntity (.idx 1)⟩], some .null⟩,
     ⟨.vStr [98], .vInt (-1), .vInt (-1), [⟨TagPOINTER, .vEntity .null⟩], some (.idx 0)⟩]
    rfl
  exact (h.2.1 0 ⟨.vStr [97], .vInt (-1), .vInt (-1), [⟨TagPOINTER, .vInt 1⟩], none⟩ 0 1
    rfl rfl).1 (by decide) (by decide)

/-- C10: a raw pointer index `m` with `-N ≤ m < -1` resolves, by Python
negative indexing, to the entity at position `N + m` (so not to the null
sentinel and without failure), and a raw integer index makes the
resolution fail exactly when it is not `-1` and lies outside `[-N, N)`. -/
theorem resolve_pointers_negative_indexing (es es' : List SabEntity)
    (hres : resolvePointers es = .ok es') (p : Nat) (e : SabEntity)
    (j : Nat) (m : Int)
    (hp : es.get? p = some e)
    (ht : e.data.get? j = some ⟨TagPOINTER, .vInt m⟩)
    (hlo : -(es.length : Int) ≤ m) (hhi : m < -1) :
    (∃ e', es'.get? p = some e'
      ∧ e'.data.get? j = some ⟨TagPOINTER, .vEntity (.idx (es.length - (-m).toNat))⟩)
    ∧ ((es.length : Int) - ((-m).toNat : Int) = (es.length : Int) + m)
    ∧ (∀ (n : Nat) (k : Int),
        (∃ er, ptr n (.vInt k) = .error er)
          ↔ (k ≠ -1 ∧ ((n : Int) ≤ k ∨ k < -(n : Int)))) := by
  have hres' : exMapM (resolveEntity es.length) es = .ok es' := hres
  refine ⟨?_, by omega, ptr_vInt_error_iff⟩
  obtain ⟨e', hpe', hre⟩ := exMapM_ok_get? hres' p e hp
  obtain ⟨t', ht', hrt⟩ := resolveEntity_data_get _ e e' hre j _ ht
  obtain ⟨r, hpr, ht'eq⟩ := resolveToken_ptr_vInt _ m t' hrt
  rw [ptr_vInt_neg es.length m hlo hhi] at hpr
  injection hpr with hr
  subst hr
  rw [ht'eq] at ht'
  exact ⟨e', hpe', ht'⟩

/-- Witness for `resolve_pointers_negative_indexing` on a two-entity list
whose first entity holds the raw pointer `-2`, resolving to position 0. -/
theorem resolve_pointers_negative_indexing_witness :
    ∃ e',
      ([⟨.vStr [97], .vInt (-1), .vInt (-1), [⟨TagPOINTER, .vEntity (.idx 0)⟩], some .null⟩,
        ⟨.vStr [98], .vInt (-1), .vInt (-1), [], some .null⟩]
        : List SabEntity).get? 0 = some e'
      ∧ e'.data.get? 0 = some ⟨TagPOINTER, .vEntity (.idx 0)⟩ := by
  have h := resolve_pointers_negative_indexing
    [⟨.vStr [97], .vInt (-1), .vInt (-1), [⟨TagPOINTER, .vInt (-2)⟩], none⟩,
     ⟨.vStr [98], .vInt (-1), .vInt (-1), [], none⟩]
    [⟨.vStr [97], .vInt (-1), .vInt (-1), [⟨TagPOINTER, .vEntity (.idx 0)⟩], some .null⟩,
     ⟨.vStr [98], .vInt (-1), .vInt (-1), [], some .null⟩]
    rfl 0 ⟨.vStr [97], .vInt (-1), .vInt (-1), [⟨TagPOINTER, .vInt (-2)⟩], none⟩ 0 (-2)
    rfl rfl (by decide) (by decide)
  exact h.1

/-- C3: resolving pointers twice is not a no-op.  A single entity with raw
attribute pointer `0` resolves to a self-reference, but the pass discards
the raw index (`attr_ptr = -1`), so a second pass rewrites the attributes
field to the null sentinel, changing the list. -/
theorem resolve_pointers_not_idempotent_cex :
    resolvePointers [⟨.vStr [97], .vInt 0, .vInt (-1), [], none⟩] =
      .ok [⟨.vStr [97], .vInt (-1), .vInt (-1), [], some (.idx 0)⟩]
    ∧ resolvePointers [⟨.vStr [97], .vInt (-1), .vInt (-1), [], some (.idx 0)⟩] =
      .ok [⟨.vStr [97], .vInt (-1), .vInt (-1), [], some .null⟩]
    ∧ ([⟨.vStr [97], .vInt (-1), .vInt (-1), [], some (.idx 0)⟩] : List SabEntity) ≠
      [⟨.vStr [97], .vInt (-1), .vInt (-1), [], some .null⟩] :=
  ⟨rfl, rfl, by decide⟩

/-- A token list without `POINTER` tags is mapped to itself by the
resolution pass. -/
theorem exMapM_resolveToken_nop (n : Nat) (l : List Token)
    (h : ∀ t ∈ l, t.tag ≠ TagPOINTER) : exMapM (resolveToken n) l = .ok l := by
  induction l with
  | nil => rfl
  | cons t rest ih =>
    have ht : resolveToken n t = .ok t := by
      rw [resolveToken]
      have hne : ¬ (t.tag == TagPOINTER) = true := by
        simp only [beq_iff_eq]
        exact h t (by simp)
      rw [if_neg hne]
    rw [exMapM, ht, ih (fun t' ht' => h t' (by simp [ht']))]

/-- An entity whose attribute pointer is already `-1` and whose data has
no `POINTER` tokens is only changed by setting its attributes field to the
null sentinel. -/
theorem resolveEntity_trivial (n : Nat) (e : SabEntity)
    (ha : e.attr_ptr = .vInt (-1))
    (hd : ∀ t ∈ e.data, t.tag ≠ TagPOINTER) :
    resolveEntity n e = .ok { e with attributes := some EntityRef.null } := by
  obtain ⟨nm, ap, idv, dt, att⟩ := e
  simp only at ha hd
  subst ha
  have hmap : exMapM (resolveToken n) dt = .ok dt := exMapM_resolveToken_nop n dt hd
  simp [resolveEntity, ptr_vInt_neg1, hmap]

/-- Resolution of a list of trivial entities (attribute pointers `-1`, no
`POINTER` data tokens) sets every attributes field to the null sentinel
and changes nothing else, for any arena length. -/
theorem exMapM_resolveEntity_trivial (n : Nat) (l : List SabEntity)
    (hattr : ∀ e ∈ l, e.attr_ptr = .vInt (-1))
    (hnop : ∀ e ∈ l, ∀ t ∈ e.data, t.tag ≠ TagPOINTER) :
    exMapM (resolveEntity n) l =
      .ok (l.map (fun e => { e with attributes := some EntityRef.null })) := by
  induction l with
  | nil => rfl
  | cons e rest ih =>
    rw [exMapM, resolveEntity_trivial n e (hattr e (by simp)) (hnop e (by simp)),
      ih (fun e' he' => hattr e' (by simp [he'])) (fun e' he' => hnop e' (by simp [he']))]
    rfl

/-- C3 (amended): a second application of `resolve_pointers` is a no-op
only on lists whose entities all have attribute pointer `-1` and no
`POINTER`-tagged data token (then the pass only rewrites every attributes
field to the null sentinel, which is idempotent); in general the second
pass resets resolved attribute references to the null sentinel — see the
counterexample — or fails on resolved pointer tokens. -/
theorem resolve_pointers_idempotent_when_trivial (es : List SabEntity)
    (hattr : ∀ e ∈ es, e.attr_ptr = .vInt (-1))
    (hnop : ∀ e ∈ es, ∀ t ∈ e.data, t.tag ≠ TagPOINTER) :
    ∀ es₁, resolvePointers es = .ok es₁ → resolvePointers es₁ = .ok es₁ := by
  intro es₁ h1
  have h1' : exMapM (resolveEntity es.length) es = .ok es₁ := h1
  rw [exMapM_resolveEntity_trivial es.length es hattr hnop] at h1'
  injection h1' with he
  subst he
  have hattr2 : ∀ e ∈ es.map (fun e => { e with attributes := some EntityRef.null }),
      e.attr_ptr = .vInt (-1) := by
    intro e he
    simp only [List.mem_map] at he
    obtain ⟨e0, he0, rfl⟩ := he
    exact hattr e0 he0
  have hnop2 : ∀ e ∈ es.map (fun e => { e with attributes := some EntityRef.null }),
      ∀ t ∈ e.data, t.tag ≠ TagPOINTER := by
    intro e he
    simp only [List.mem_map] at he
    obtain ⟨e0, he0, rfl⟩ := he
    exact hnop e0 he0
  have h2 := exMapM_resolveEntity_trivial
    (es.map (fun e => { e with attributes := some EntityRef.null })).length
    (es.map (fun e => { e with attributes := some EntityRef.null })) hattr2 hnop2
  have hff : (es.map (fun e => { e with attributes := some EntityRef.null })).map
      (fun e => { e with attributes := some EntityRef.null }) =
      es.map (fun e => { e with attributes := some EntityRef.null }) := by
    rw [List.map_map]
    rfl
  rw [hff] at h2
  exact h2

/-- Witness for `resolve_pointers_idempotent_when_trivial`: a single
entity with attribute pointer `-1` and a non-pointer data token is a fixed
point of the second resolution pass. -/
theorem resolve_pointers_idempotent_when_trivial_witness :
    resolvePointers
      [⟨.vStr [97], .vInt (-1), .vInt (-1), [⟨TagINT, .vInt 5⟩], some .null⟩] =
      .ok [⟨.vStr [97], .vInt (-1), .vInt (-1), [⟨TagINT, .vInt 5⟩], some .null⟩] :=
  resolve_pointers_idempotent_when_trivial
    [⟨.vStr [97], .vInt (-1), .vInt (-1), [⟨TagINT, .vInt 5⟩], none⟩]
    (by decide) (by decide)
    [⟨.vStr [97], .vInt (-1), .vInt (-1), [⟨TagINT, .vInt 5⟩], some .null⟩] rfl

/-- C8: for a non-marker record, the entity builder takes token 0 as the
name and token 1 as the raw attribute pointer; with header version at
least 700 token 2 is the explicit identifier and data starts at token 3,
below 700 the identifier defaults to `-1` and data starts at token 2. -/
theorem build_entities_token_layout (version : Int) (record : List Token)
    (t0 t1 : Token)
    (h0 : record.get? 0 = some t0) (hm : isEndMarkerVal t0.value = false)
    (h1 : record.get? 1 = some t1) :
    (∀ t2, version ≥ 700 → record.get? 2 = some t2 →
      buildOne version record =
        .ok (.cont ⟨t0.value, t1.value, t2.value, record.drop 3, none⟩))
    ∧ (version < 700 →
      buildOne version record =
        .ok (.cont ⟨t0.value, t1.value, .vInt (-1), record.drop 2, none⟩)) := by
  have hp0 : pyAt record 0 = .ok t0 := by rw [pyAt, h0]
  have hp1 : pyAt record 1 = .ok t1 := by rw [pyAt, h1]
  constructor
  · intro t2 hv h2
    have hp2 : pyAt record 2 = .ok t2 := by rw [pyAt, h2]
    simp [buildOne, hp0, hp1, hp2, hm, hv]
  · intro hv
    have hnv : ¬ version ≥ 700 := by omega
    simp [buildOne, hp0, hp1, hm, hnv]

/-- Witness for `build_entities_token_layout` on a concrete four-token
record under versions 700 and 6xx. -/
theorem build_entities_token_layout_witness :
    buildOne 700
      [⟨TagENTITY_TYPE, .vStr bodyBytes⟩, ⟨TagPOINTER, .vInt (-1)⟩,
        ⟨TagINT, .vInt 3⟩, ⟨TagINT, .vInt 9⟩] =
      .ok (.cont ⟨.vStr bodyBytes, .vInt (-1), .vInt 3, [⟨TagINT, .vInt 9⟩], none⟩)
    ∧ buildOne 400
      [⟨TagENTITY_TYPE, .vStr bodyBytes⟩, ⟨TagPOINTER, .vInt (-1)⟩,
        ⟨TagINT, .vInt 3⟩, ⟨TagINT, .vInt 9⟩] =
      .ok (.cont ⟨.vStr bodyBytes, .vInt (-1), .vInt (-1),
        [⟨TagINT, .vInt 3⟩, ⟨TagINT, .vInt 9⟩], none⟩) := by
  constructor
  · exact (build_entities_token_layout 700
      [⟨TagENTITY_TYPE, .vStr bodyBytes⟩, ⟨TagPOINTER, .vInt (-1)⟩,
        ⟨TagINT, .vInt 3⟩, ⟨TagINT, .vInt 9⟩]
      ⟨TagENTITY_TYPE, .vStr bodyBytes⟩ ⟨TagPOINTER, .vInt (-1)⟩
      rfl (by decide) rfl).1 ⟨TagINT, .vInt 3⟩ (by decide) rfl
  · exact (build_entities_token_layout 400
      [⟨TagENTITY_TYPE, .vStr bodyBytes⟩, ⟨TagPOINTER, .vInt (-1)⟩,
        ⟨TagINT, .vInt 3⟩, ⟨TagINT, .vInt 9⟩]
      ⟨TagENTITY_TYPE, .vStr bodyBytes⟩ ⟨TagPOINTER, .vInt (-1)⟩
      rfl (by decide) rfl).2 (by decide)

/-- C9: every successful decode produces a builder whose bodies list is
exactly the filter of its entity list by name `"body"`, in order. -/
theorem parse_sab_bodies_filter (fuel : Nat) (b : PyVal) (builder : SabBuilder)
    (h : parseSab fuel b = .ok builder) :
    builder.bodies = builder.entities.filter
      (fun e => e.name == Value.vStr bodyBytes) := by
  rw [parseSab.eq_def] at h
  cases h1 : toBytes b with
  | error e => rw [h1] at h; exact Except.noConfusion h
  | ok data =>
    rw [h1] at h
    simp only [] at h
    cases h2 : readHeader data with
    | error e => rw [h2] at h; exact Except.noConfusion h
    | ok hp =>
      obtain ⟨header, index⟩ := hp
      rw [h2] at h
      simp only [] at h
      cases h3 : buildLoop fuel fuel data index header.version with
      | error e => rw [h3] at h; exact Except.noConfusion h
      | ok entities =>
        rw [h3] at h
        simp only [] at h
        cases h4 : resolvePointers entities with
        | error e => rw [h4] at h; exact Except.noConfusion h
        | ok resolved =>
          rw [h4] at h
          simp only [] at h
          injection h with h'
          subst h'
          simp [setEntities]

/-- Witness for `parse_sab_bodies_filter`: a minimal synthetic SAB buffer
(signature, version-700 header, one `"End-of-ACIS-data"` sentinel record)
decodes to a builder with one marker entity and no bodies. -/
theorem parse_sab_bodies_filter_witness :
    (SabBuilder.mk
      ⟨700, 0, 0, 0, [112], [97],
        [49, 32, 74, 97, 110, 32, 49, 57, 48, 48, 32, 48, 48, 58, 48, 48, 58, 48, 48],
        4607182418800017408⟩
      []
      [⟨.vStr [69, 110, 100, 45, 111, 102, 45, 65, 67, 73, 83, 45, 100, 97, 116, 97],
        .vInt (-1), .vInt (-1), [], some .null⟩]).bodies =
    (SabBuilder.mk
      ⟨700, 0, 0, 0, [112], [97],
        [49, 32, 74, 97, 110, 32, 49, 57, 48, 48, 32, 48, 48, 58, 48, 48, 58, 48, 48],
        4607182418800017408⟩
      []
      [⟨.vStr [69, 110, 100, 45, 111, 102, 45, 65, 67, 73, 83, 45, 100, 97, 116, 97],
        .vInt (-1), .vInt (-1), [], some .null⟩]).entities.filter
      (fun e => e.name == Value.vStr bodyBytes) :=
  parse_sab_bodies_filter 50
    (.pyBytes
      [65, 67, 73, 83, 32, 66, 105, 110, 97, 114, 121, 70, 105, 108, 101, 188, 2, 0,
        0, 0, 0, 0, 0, 0, 0, 0, 0, 0, 0, 0, 0, 7, 1, 112, 7, 1, 97, 7, 19, 49, 32, 74,
        97, 110, 32, 49, 57, 48, 48, 32, 48, 48, 58, 48, 48, 58, 48, 48, 6, 0, 0, 0, 0,
        0, 0, 240, 63, 6, 0, 0, 0, 0, 0, 0, 0, 0, 6, 0, 0, 0, 0, 0, 0, 0, 0, 7, 16, 69,
        110, 100, 45, 111, 102, 45, 65, 67, 73, 83, 45, 100, 97, 116, 97, 17])
    (SabBuilder.mk
      ⟨700, 0, 0, 0, [112], [97],
        [49, 32, 74, 97, 110, 32, 49, 57, 48, 48, 32, 48, 48, 58, 48, 48, 58, 48, 48],
        4607182418800017408⟩
      []
      [⟨.vStr [69, 110, 100, 45, 111, 102, 45, 65, 67, 73, 83, 45, 100, 97, 116, 97],
        .vInt (-1), .vInt (-1), [], some .null⟩])
    rfl
